import Mathlib

/-!
Verification of the constellation DNS resolution core (src/src/dns/handler.rs,
src/src/dns/record.rs) against its natural-language specification. The Rust
code is shallowly embedded: strings are lists of characters, the trust_dns
wire types (Name, Message, Record, AuthLookup) are modelled as plain
structures, fallible code returns Option, and the reachable Rust panics are
made explicit through a dedicated result type.
-/

set_option autoImplicit false

namespace Constellation

/-- A Rust string, embedded as its list of characters. -/
abbrev Str := List Char

/-- Model of Rust str::to_lowercase, applied per character. -/
def strLower (s : Str) : Str := s.map Char.toLower

/-- Model of Rust str::split over a one-character pattern: the list of parts
between occurrences of the separator (always at least one part). -/
def splitOnChar (sep : Char) : Str → List Str
  | [] => [[]]
  | c :: cs =>
    let rest := splitOnChar sep cs
    if c = sep then [] :: rest
    else match rest with
      | [] => [[c]]
      | p :: ps => (c :: p) :: ps

/-- Model of query_name.to_string().splitn(2, ".").nth(1): the remainder of
the string after its first dot, or none when the string has no dot
(src/src/dns/handler.rs line 188). -/
def afterFirstDot : Str → Option Str
  | [] => none
  | c :: cs => if c = '.' then some cs else afterFirstDot cs

/-- Model of trust_dns_proto::rr::Name: a domain name as its list of labels,
leftmost label first. Query and origin names decoded from the wire are
absolute, so the trailing-root information is left implicit. -/
structure TrustName where
  labels : List Str
deriving DecidableEq, Repr

/-- Model of Name's Display (used by to_string in the handler): every label
followed by a dot, and the bare root printed as a single dot. -/
def trustNameToString (n : TrustName) : Str :=
  if n.labels = [] then ['.']
  else (n.labels.map (fun l => l ++ ['.'])).flatten

/-- Model of Name::parse(s, Some(&Name::new())): split the text on dots into
labels, dropping the final empty part produced by an absolute name's trailing
dot; a remaining empty label rejects the input. -/
def trustNameParse (s : Str) : Option TrustName :=
  let parts := splitOnChar '.' s
  let parts := if parts.getLast? = some [] then parts.dropLast else parts
  if parts.all (fun p => ¬ p.isEmpty) then some ⟨parts⟩ else none

/-- Model of Name::base_name: the name with its leftmost label removed. -/
def TrustName.base_name (n : TrustName) : TrustName := ⟨n.labels.tail⟩

/-- Model of Name::is_root. -/
def TrustName.is_root (n : TrustName) : Bool := n.labels.isEmpty

/-- Model of trust_dns_proto::rr::RecordType restricted to the wire types the
handler can meet; Other stands for any type outside the supported set. -/
inductive TrustRecordType
  | A | AAAA | CNAME | MX | TXT | PTR | SOA | NS | Other
deriving DecidableEq, Repr

/-- RecordType from src/src/dns/record.rs lines 31-39. -/
inductive RecordType
  | A | AAAA | CNAME | MX | TXT | PTR
deriving DecidableEq, Repr

/-- RecordType::from_trust (src/src/dns/record.rs lines 88-98). -/
def RecordType.from_trust : TrustRecordType → Option RecordType
  | .A => some .A
  | .AAAA => some .AAAA
  | .CNAME => some .CNAME
  | .MX => some .MX
  | .TXT => some .TXT
  | .PTR => some .PTR
  | _ => none

/-- RecordType::to_trust (src/src/dns/record.rs lines 111-120); the Rust
signature is Result, and every branch is Ok. -/
def RecordType.to_trust : RecordType → Except Unit TrustRecordType
  | .A => .ok .A
  | .AAAA => .ok .AAAA
  | .CNAME => .ok .CNAME
  | .MX => .ok .MX
  | .TXT => .ok .TXT
  | .PTR => .ok .PTR

/-- The character class [^\\/:@&\*] of RECORD_NAME_REGEX
(src/src/dns/record.rs line 23): true when the character is one of the six
excluded ones. The backslash is written by code point. -/
def recordNameForbidden (c : Char) : Bool :=
  c = Char.ofNat 92 || c = '/' || c = ':' || c = '@' || c = '&' || c = '*'

/-- Matcher for the regex group (([^\\/:@&\*]+)\.): the text ends with a dot
preceded by a non-empty run of characters from the class (the class itself
contains the dot). -/
def middleDotPart (t : Str) : Bool :=
  t.getLast? = some '.' && t.dropLast ≠ [] &&
    t.dropLast.all (fun c => recordNameForbidden c = false)

/-- Matcher for the optional middle group: empty or a middleDotPart. -/
def optMiddle (t : Str) : Bool := t.isEmpty || middleDotPart t

/-- RecordName::validate (src/src/dns/record.rs lines 179-181): the anchored
regex ^(\*\.)?(([^\\/:@&\*]+)\.)?@$, decomposed as the @ sentinel at the end,
preceded by an optional *. prefix and an optional class-run-plus-dot. -/
def recordNameValidate (s : Str) : Bool :=
  s.getLast? = some '@' &&
    (optMiddle s.dropLast ||
     (s.dropLast.take 2 = ['*', '.'] && optMiddle (s.dropLast.drop 2)))

/-- RecordName (src/src/dns/record.rs line 42). -/
structure RecordName where
  raw : Str
deriving DecidableEq, Repr

/-- RecordName::from_str (src/src/dns/record.rs lines 135-141). -/
def RecordName.from_str (value : Str) : Option RecordName :=
  if recordNameValidate value then some ⟨strLower value⟩ else none

/-- RecordName::from_trust (src/src/dns/record.rs lines 143-163): lowercase
the printed query name, strip the zone suffix when the name ends with a dot
and has the printed zone as a suffix, append the @ sentinel, and validate. -/
def RecordName.from_trust (zone_name : TrustName) (query_name : TrustName) :
    Option RecordName :=
  let query_string := strLower (trustNameToString query_name)
  let query_string :=
    if ¬ query_string.isEmpty then
      let zone_string := strLower (trustNameToString zone_name)
      if query_string.getLast? = some '.' && zone_string.isSuffixOf query_string then
        query_string.take (query_string.length - zone_string.length)
      else query_string
    else query_string
  RecordName.from_str (query_string ++ ['@'])

/-- Byte length of a string under UTF-8, the unit in which Rust indexes str. -/
def utf8Len (s : Str) : Nat := (s.map Char.utf8Size).sum

/-- Model of str::split_at at byte index n: walk the characters accumulating
their UTF-8 sizes and cut where exactly n bytes have been consumed. The none
result is the Rust panic: index n is past the end or inside the encoding of a
character (not a char boundary). -/
def splitAtByte : Nat → Str → Option (Str × Str)
  | 0, s => some ([], s)
  | _ + 1, [] => none
  | n + 1, c :: cs =>
    if c.utf8Size ≤ n + 1 then
      match splitAtByte (n + 1 - c.utf8Size) cs with
      | some (pre, suf) => some (c :: pre, suf)
      | none => none
    else none

/-- The TXT chunk maximum (src/src/dns/record.rs line 26). -/
def DATA_TXT_CHUNK_MAXIMUM : Nat := 255

/-- The while loop of the TXT branch of RecordValue::to_trust
(src/src/dns/record.rs lines 224-231), with fuel bounding the rounds: each
round cuts min(255, len) bytes off the front, so the character count is
enough fuel. The none result is the split_at panic. -/
def txtChunksGo : Nat → Str → Option (List Str)
  | _, [] => some []
  | 0, _ :: _ => none
  | fuel + 1, c :: cs =>
    match splitAtByte (min DATA_TXT_CHUNK_MAXIMUM (utf8Len (c :: cs))) (c :: cs) with
    | none => none
    | some (chunk, rest) =>
      match txtChunksGo fuel rest with
      | none => none
      | some chunks => some (chunk :: chunks)

/-- The chunk list the TXT while loop builds, or none when split_at panics. -/
def txtChunks (s : Str) : Option (List Str) := txtChunksGo s.length s

/-- Decimal digit parser used to model Rust's integer FromStr. -/
def decDigits (s : Str) : Option Nat :=
  if ¬ s.isEmpty && s.all Char.isDigit then
    some (s.foldl (fun acc c => acc * 10 + (c.toNat - 48)) 0)
  else none

/-- Model of u16::from_str (std, external to the repository): decimal digits
whose value fits in 16 bits. -/
def parseU16 (s : Str) : Option Nat :=
  match decDigits s with
  | some n => if n < 65536 then some n else none
  | none => none

/-- Model of one decimal octet of std's Ipv4Addr parser: at most three
digits, value at most 255. -/
def parseOctet (s : Str) : Option Nat :=
  if s.length ≤ 3 then
    match decDigits s with
    | some n => if n ≤ 255 then some n else none
    | none => none
  else none

/-- Model of Ipv4Addr::from_str (std, external to the repository): exactly
four dot-separated decimal octets. -/
def parseIpv4 (s : Str) : Option (List Nat) :=
  match (splitOnChar '.' s).mapM parseOctet with
  | some parts => if parts.length = 4 then some parts else none
  | none => none

/-- A hexadecimal digit's value, for the IPv6 model. -/
def hexVal (c : Char) : Option Nat :=
  if c.isDigit then some (c.toNat - 48)
  else if 'a' ≤ c && c ≤ 'f' then some (c.toNat - 87)
  else if 'A' ≤ c && c ≤ 'F' then some (c.toNat - 55)
  else none

/-- One 16-bit hexadecimal group of an IPv6 address: one to four hex digits. -/
def parseHexGroup (s : Str) : Option Nat :=
  if ¬ s.isEmpty && s.length ≤ 4 then
    match s.mapM hexVal with
    | some ds => some (ds.foldl (fun acc d => acc * 16 + d) 0)
    | none => none
  else none

/-- Model of Ipv6Addr::from_str (std, external to the repository), slightly
simplified: eight colon-separated hexadecimal groups, or fewer with one ::
abbreviation standing for a run of zero groups (the embedded-IPv4 tail form
is not modelled; no claim depends on which texts this parser accepts). -/
def parseIpv6 (s : Str) : Option (List Nat) :=
  let parts := splitOnChar ':' s
  match parts.mapM parseHexGroup with
  | some groups => if groups.length = 8 then some groups else none
  | none =>
    let leading := if parts.take 2 = [[], []] then parts.drop 2 else parts
    let trimmed := if leading.getLast? = some [] ∧ leading.length ≥ 2
                   then leading.dropLast else leading
    let pieces := trimmed.splitOn []
    match pieces with
    | [left, right] =>
      match left.mapM parseHexGroup, right.mapM parseHexGroup with
      | some ls, some rs =>
        if ls.length + rs.length < 8 then
          some (ls ++ List.replicate (8 - (ls.length + rs.length)) 0 ++ rs)
        else none
      | _, _ => none
    | [single] =>
      match single.mapM parseHexGroup with
      | some gs =>
        if gs.length < 8 ∧ (parts.take 2 = [[], []] ∨ parts.getLast? = some []) then
          if parts.take 2 = [[], []] then some (List.replicate (8 - gs.length) 0 ++ gs)
          else some (gs ++ List.replicate (8 - gs.length) 0)
        else none
      | none => none
    | _ => none

/-- Wire record data, the model of trust_dns RData for the six supported
types. -/
inductive TrustRData
  | A (addr : List Nat)
  | AAAA (addr : List Nat)
  | CNAME (name : TrustName)
  | MX (priority : Nat) (exchange : TrustName)
  | TXT (chunks : List Str)
  | PTR (name : TrustName)
deriving DecidableEq, Repr

/-- Outcome of RecordValue::to_trust: Ok data, Err (the value is logged and
skipped by the caller), or a Rust panic. -/
inductive ConvResult
  | panicked
  | invalid
  | ok (data : TrustRData)
deriving DecidableEq, Repr

/-- RecordValue::to_trust (src/src/dns/record.rs lines 185-243). The TXT
branch is the only one that can panic: it splits the value at byte index
min(255, len) with str::split_at. -/
def RecordValue.to_trust (value : Str) (record_type : RecordType) : ConvResult :=
  match record_type with
  | .A =>
    match parseIpv4 value with
    | some addr => .ok (.A addr)
    | none => .invalid
  | .AAAA =>
    match parseIpv6 value with
    | some addr => .ok (.AAAA addr)
    | none => .invalid
  | .CNAME =>
    match trustNameParse value with
    | some name => .ok (.CNAME name)
    | none => .invalid
  | .MX =>
    let mx_parts := splitOnChar ' ' value
    let priority_str := mx_parts.headD []
    let exchange_str := (mx_parts.drop 1).headD []
    match parseU16 priority_str, trustNameParse exchange_str with
    | some priority, some exchange => .ok (.MX priority exchange)
    | _, _ => .invalid
  | .TXT =>
    match txtChunks value with
    | none => .panicked
    | some txt_splits =>
      if ¬ txt_splits.isEmpty then .ok (.TXT txt_splits) else .invalid
  | .PTR =>
    match trustNameParse value with
    | some name => .ok (.PTR name)
    | none => .invalid

/-- StoreRecord (store/store.rs is referenced through its interface; §3 of
the spec): the tuple a store lookup returns. The regions/blackhole fields are
carried opaquely by the core and are not modelled. -/
structure StoreRecord where
  kind : RecordType
  values : List Str
  ttl : Option Nat
deriving DecidableEq, Repr

/-- Modelled from the spec: ZoneName lives in dns/zone.rs, which is not among
the staged sources; per §3 and §6 it is the store key naming a zone origin,
and ZoneName::from_trust projects the authority's origin name onto it
(src/src/dns/handler.rs line 213). It is modelled as the lowercased printed
origin. -/
structure ZoneName where
  raw : Str
deriving DecidableEq, Repr

/-- Modelled from the spec: ZoneName::from_trust (dns/zone.rs, not staged). -/
def ZoneName.from_trust (name : TrustName) : Option ZoneName :=
  some ⟨strLower (trustNameToString name)⟩

/-- The store interface (§4.3, §6): get(zone, name, type) with NotFound and
Backend errors both collapsing to none, since the handler only asks if let
Ok(record) (src/src/dns/handler.rs lines 230, 244). -/
abbrev Store := ZoneName → RecordName → RecordType → Option StoreRecord

/-- A wire resource record as Record::from_rdata builds it
(src/src/dns/handler.rs lines 280-285). -/
structure TrustRecord where
  name : TrustName
  ttl : Nat
  rtype : TrustRecordType
  rdata : TrustRData
deriving DecidableEq, Repr

/-- A question of the request message. -/
structure Query where
  name : TrustName
  query_type : TrustRecordType
deriving DecidableEq, Repr

/-- Model of trust_dns MessageType. -/
inductive MessageType
  | Query | Response
deriving DecidableEq, Repr

/-- Model of trust_dns OpCode; Update stands for any non-Query opcode. -/
inductive OpCode
  | Query | Update | Status | Notify
deriving DecidableEq, Repr

/-- The response codes the core uses (§6). -/
inductive ResponseCode
  | NoError | NXDomain | NotImp | ServFail
deriving DecidableEq, Repr

/-- Model of trust_dns Message, restricted to the fields the handler reads
and writes. -/
structure Message where
  id : Nat
  message_type : MessageType
  op_code : OpCode
  response_code : ResponseCode
  authoritative : Bool
  queries : List Query
  answers : List TrustRecord
  name_servers : List TrustRecord
deriving DecidableEq, Repr

/-- Model of Message::new: the trust_dns defaults. -/
def Message.new : Message :=
  { id := 0, message_type := .Query, op_code := .Query,
    response_code := .NoError, authoritative := false,
    queries := [], answers := [], name_servers := [] }

/-- Modelled from the spec: Message::error_msg (trust_dns, not part of this
repository). Per §4.4.1, the NotImp dispatch outcomes respond with the
request's id and opcode echoed; error_msg sets id, opcode and response code
on a fresh response-type message and carries no question section. -/
def Message.error_msg (id : Nat) (op_code : OpCode) (response_code : ResponseCode) :
    Message :=
  { Message.new with
    message_type := .Response, id := id,
    response_code := response_code, op_code := op_code }

/-- Modelled from the spec: AuthLookup (trust_dns_server, not part of this
repository), the tagged local-search result of §3. -/
inductive AuthLookup
  | NoName
  | NameExists
  | Records (records : List TrustRecord)
deriving DecidableEq, Repr

/-- Modelled from the spec: AuthLookup::is_empty (trust_dns_server, not part
of this repository): true exactly on NoName and NameExists, matching §4.4.3
where step 1 serves a Records result and step 4 treats Records as
impossible. -/
def AuthLookup.is_empty : AuthLookup → Bool
  | .NoName => true
  | .NameExists => true
  | .Records _ => false

/-- The record list inside a lookup result, as records_local.iter() sees it
(src/src/dns/handler.rs lines 106-109). -/
def AuthLookup.records : AuthLookup → List TrustRecord
  | .Records records => records
  | _ => []

/-- Modelled from the spec: trust_dns_server::authority::Authority (not part
of this repository), through the four operations §4.2 lists: origin(), the
local search, soa_secure() and ns(). The search is an arbitrary function so
every library behavior is covered. -/
structure Authority where
  origin : TrustName
  search : Query → AuthLookup
  soa : List TrustRecord
  ns : List TrustRecord

/-- The authority table: one entry per configured zone apex (§3). -/
abbrev AuthTable := List (TrustName × Authority)

/-- HashMap::get on the authority table. -/
def authGet (authorities : AuthTable) (name : TrustName) : Option Authority :=
  (authorities.find? (fun p => p.1 = name)).map Prod.snd

/-- DNSHandler::find_auth_recurse (src/src/dns/handler.rs lines 163-177),
written over the label list of the looked-up name: try the table, then
recurse on the base name while it is not the root. -/
def find_auth_recurse (authorities : AuthTable) : List Str → Option Authority
  | [] => authGet authorities ⟨[]⟩
  | l :: rest =>
    match authGet authorities ⟨l :: rest⟩ with
    | some authority => some authority
    | none => if rest.isEmpty then none else find_auth_recurse authorities rest

/-- The outcome of running embedded Rust that may panic. -/
inductive Res (α : Type)
  | panicked
  | ok (val : α)
deriving DecidableEq, Repr

/-- Map over a non-panicked outcome. -/
def Res.map {α β : Type} (f : α → β) : Res α → Res β
  | .panicked => .panicked
  | .ok a => .ok (f a)

/-- The value loop of DNSHandler::parse_from_records
(src/src/dns/handler.rs lines 278-293): convert each value, push a record
carrying the client-facing name and the default TTL on success, skip the
value on conversion failure, and propagate a conversion panic. -/
def parse_from_records_go (record_ttl : Nat) (query_name_client : TrustName)
    (kind : RecordType) (type_data : TrustRecordType) (ttl : Option Nat) :
    List Str → List TrustRecord → Res (List TrustRecord)
  | [], records => .ok records
  | value :: values, records =>
    match RecordValue.to_trust value kind with
    | .panicked => .panicked
    | .invalid => parse_from_records_go record_ttl query_name_client kind type_data ttl values records
    | .ok value_data =>
      parse_from_records_go record_ttl query_name_client kind type_data ttl values
        (records ++ [{ name := query_name_client, ttl := ttl.getD record_ttl,
                       rtype := type_data, rdata := value_data }])

/-- DNSHandler::parse_from_records (src/src/dns/handler.rs lines 272-300). -/
def parse_from_records (record_ttl : Nat) (query_name_client : TrustName)
    (record : StoreRecord) (records : List TrustRecord) : Res (List TrustRecord) :=
  match record.kind.to_trust with
  | .error _ => .ok records
  | .ok type_data =>
    parse_from_records_go record_ttl query_name_client record.kind type_data
      record.ttl record.values records

/-- DNSHandler::records_from_store_attempt (src/src/dns/handler.rs lines
207-270): project the query onto the store's key space; on success fetch the
requested type, then (for non-CNAME types) fetch the CNAME hint at the same
key, expanding both onto the client-facing name; answer some records only
when the accumulated list is non-empty. -/
def records_from_store_attempt (record_ttl : Nat) (store : Store)
    (authority : Authority) (query_name_client query_name_effective : TrustName)
    (query_type : TrustRecordType) : Res (Option (List TrustRecord)) :=
  match ZoneName.from_trust authority.origin,
        RecordName.from_trust authority.origin query_name_effective,
        RecordType.from_trust query_type with
  | some zone_name, some record_name, some record_type =>
    let direct : Res (List TrustRecord) :=
      match store zone_name record_name record_type with
      | some record => parse_from_records record_ttl query_name_client record []
      | none => .ok []
    match direct with
    | .panicked => .panicked
    | .ok records =>
      let with_hint : Res (List TrustRecord) :=
        if record_type ≠ RecordType.CNAME then
          match store zone_name record_name RecordType.CNAME with
          | some record_cname => parse_from_records record_ttl query_name_client record_cname records
          | none => .ok records
        else .ok records
      match with_hint with
      | .panicked => .panicked
      | .ok records => .ok (if ¬ records.isEmpty then some records else none)
  | _, _, _ => .ok none

/-- DNSHandler::records_from_store (src/src/dns/handler.rs lines 179-205):
attempt the requested name, then, when that produced nothing, derive the
wildcard name *.s from the text s after the first dot of the printed query
name and attempt it when it parses and differs from the query name. -/
def records_from_store (record_ttl : Nat) (store : Store) (authority : Authority)
    (query : Query) : Res (Option (List TrustRecord)) :=
  match records_from_store_attempt record_ttl store authority
          query.name query.name query.query_type with
  | .panicked => .panicked
  | .ok (some records) => .ok (some records)
  | .ok none =>
    match afterFirstDot (trustNameToString query.name) with
    | none => .ok none
    | some base_name =>
      match trustNameParse ('*' :: '.' :: base_name) with
      | none => .ok none
      | some wildcard_name =>
        if wildcard_name ≠ query.name then
          records_from_store_attempt record_ttl store authority
            query.name wildcard_name query.query_type
        else .ok none

/-- DNSHandler::serve_response_records (src/src/dns/handler.rs lines
302-319): positive response assembly. -/
def serve_response_records (response : Message) (records : List TrustRecord)
    (authority : Authority) : Message :=
  let response := { response with
    response_code := ResponseCode.NoError,
    authoritative := true,
    answers := response.answers ++ records }
  if authority.ns.isEmpty then response
  else { response with name_servers := response.name_servers ++ authority.ns }

/-- The body of the per-query loop of DNSHandler::lookup
(src/src/dns/handler.rs lines 88-158): authority selection, the layered
lookup and the negative path, threading the response message. The panicked
outcome covers the panic of the impossible Records arm (line 141) and any
panic inside record conversion. -/
def lookupQueryStep (record_ttl : Nat) (store : Store) (authorities : AuthTable)
    (response : Message) (query : Query) : Res Message :=
  match find_auth_recurse authorities query.name.labels with
  | some authority =>
    let records_local := authority.search query
    if ¬ records_local.is_empty then
      .ok (serve_response_records response records_local.records authority)
    else
      match records_from_store record_ttl store authority query with
      | .panicked => .panicked
      | .ok (some records_remote) =>
        .ok (serve_response_records response records_remote authority)
      | .ok none =>
        match records_local with
        | .Records _ => .panicked
        | records_local =>
          let response := { response with
            response_code := if records_local = AuthLookup.NoName
                             then ResponseCode.NXDomain else ResponseCode.NoError }
          .ok (if authority.soa.isEmpty then response
               else { response with name_servers := response.name_servers ++ authority.soa })
  | none => .ok { response with response_code := ResponseCode.NXDomain }

/-- The for loop of DNSHandler::lookup over the request's queries. -/
def lookupLoop (record_ttl : Nat) (store : Store) (authorities : AuthTable) :
    List Query → Message → Res Message
  | [], response => .ok response
  | query :: queries, response =>
    match lookupQueryStep record_ttl store authorities response query with
    | .panicked => .panicked
    | .ok response => lookupLoop record_ttl store authorities queries response

/-- The response message DNSHandler::lookup seeds before its query loop
(src/src/dns/handler.rs lines 81-86). -/
def initResponse (request : Message) : Message :=
  { Message.new with
    id := request.id,
    op_code := OpCode.Query,
    message_type := MessageType.Response,
    queries := request.queries }

/-- DNSHandler::lookup (src/src/dns/handler.rs lines 80-161). -/
def lookup (record_ttl : Nat) (store : Store) (authorities : AuthTable)
    (request : Message) : Res Message :=
  lookupLoop record_ttl store authorities request.queries (initResponse request)

/-- DNSHandler::handle_request (src/src/dns/handler.rs lines 27-68): request
dispatch on message type and opcode. -/
def handle_request (record_ttl : Nat) (store : Store) (authorities : AuthTable)
    (request : Message) : Res Message :=
  match request.message_type with
  | .Query =>
    match request.op_code with
    | .Query => lookup record_ttl store authorities request
    | code => .ok (Message.error_msg request.id code ResponseCode.NotImp)
  | .Response => .ok (Message.error_msg request.id request.op_code ResponseCode.NotImp)

/-- The response code a query's loop iteration assigns, read off the branch
structure of lookupQueryStep; the value chosen for a panicking iteration is
never observed. -/
def stepCode (record_ttl : Nat) (store : Store) (authorities : AuthTable)
    (query : Query) : ResponseCode :=
  match find_auth_recurse authorities query.name.labels with
  | some authority =>
    if ¬ (authority.search query).is_empty then ResponseCode.NoError
    else
      match records_from_store record_ttl store authority query with
      | .panicked => ResponseCode.NoError
      | .ok (some _) => ResponseCode.NoError
      | .ok none =>
        if authority.search query = AuthLookup.NoName
        then ResponseCode.NXDomain else ResponseCode.NoError
  | none => ResponseCode.NXDomain

/-- Declarative reading of RECORD_NAME_REGEX, stated from the regex text
itself: an optional *. prefix, an optional non-empty run of characters
outside the class followed by a dot, then the @ sentinel. Used to relate the
executable matcher to the regex it embeds. -/
def RegexSpec (s : Str) : Prop :=
  ∃ p m : Str, s = p ++ m ++ ['@'] ∧ (p = [] ∨ p = ['*', '.']) ∧
    (m = [] ∨ ∃ m0 : Str, m = m0 ++ ['.'] ∧ m0 ≠ [] ∧ ∀ c ∈ m0, recordNameForbidden c = false)

/-! Concrete inputs for witnesses and counterexamples. -/

/-- The empty store: every lookup misses. -/
def emptyStore : Store := fun _ _ _ => none

/-- The zone apex name com. -/
def nameCom : TrustName := ⟨["com".toList]⟩

/-- The query name www.com. -/
def nameWwwCom : TrustName := ⟨["www".toList, "com".toList]⟩

/-- An SOA service record at the com apex. -/
def soaRecordCom : TrustRecord :=
  { name := nameCom, ttl := 3600, rtype := .SOA, rdata := .TXT [] }

/-- An NS service record at the com apex. -/
def nsRecordCom : TrustRecord :=
  { name := nameCom, ttl := 3600, rtype := .NS,
    rdata := .PTR ⟨["ns1".toList, "com".toList]⟩ }

/-- An authority for zone com whose local search always answers NoName. -/
def authorityComNoName : Authority :=
  { origin := nameCom, search := fun _ => .NoName,
    soa := [soaRecordCom], ns := [nsRecordCom] }

/-- The one-zone authority table holding com. -/
def authsCom : AuthTable := [(nameCom, authorityComNoName)]

/-- A TXT value of 254 ASCII characters followed by a two-byte character, so
byte 255 falls inside that character's UTF-8 encoding. -/
def badTxtValue : Str := List.replicate 254 'a' ++ ['é']

/-- A second such TXT value, on a different ASCII character. -/
def badTxtValue2 : Str := List.replicate 254 'b' ++ ['é']

/-- A store holding the panic-triggering TXT record at (com, www.@, TXT). -/
def badTxtStore : Store := fun zone_name record_name record_type =>
  if zone_name = ⟨"com.".toList⟩ ∧ record_name = ⟨"www.@".toList⟩ ∧
     record_type = RecordType.TXT then
    some { kind := RecordType.TXT, values := [badTxtValue], ttl := none }
  else none

/-- A TXT query for www.com. -/
def queryWwwComTXT : Query := { name := nameWwwCom, query_type := .TXT }

/-- A request carrying the TXT query for www.com. -/
def requestWwwComTXT : Message :=
  { Message.new with id := 11, queries := [queryWwwComTXT] }

/-- An A query for www.com. -/
def queryWwwComA : Query := { name := nameWwwCom, query_type := .A }

/-- A request with a non-Query opcode carrying one question. -/
def requestUpdate : Message :=
  { Message.new with id := 7, op_code := .Update, queries := [queryWwwComA] }

/-- A well-formed query request carrying one question, aimed at an empty
authority table. -/
def requestQueryA : Message :=
  { Message.new with id := 9, queries := [queryWwwComA] }

/-- A store answering (com, www.@, A) with 1.2.3.4 and (com, www.@, CNAME)
with host.com., the CNAME-hint scenario of §8. -/
def storeWwwCom : Store := fun zone_name record_name record_type =>
  if zone_name = ⟨"com.".toList⟩ ∧ record_name = ⟨"www.@".toList⟩ then
    match record_type with
    | RecordType.A => some { kind := .A, values := ["1.2.3.4".toList], ttl := some 60 }
    | RecordType.CNAME => some { kind := .CNAME, values := ["host.com.".toList], ttl := none }
    | _ => none
  else none

/-- The single-label query com, for the wildcard degenerate case. -/
def queryComA : Query := { name := nameCom, query_type := .A }

/-- A store holding only the root-wildcard record (com, *.@, A) → 9.9.9.9. -/
def storeWildRoot : Store := fun zone_name record_name record_type =>
  if zone_name = ⟨"com.".toList⟩ ∧ record_name = ⟨"*.@".toList⟩ ∧
     record_type = RecordType.A then
    some { kind := RecordType.A, values := ["9.9.9.9".toList], ttl := none }
  else none

/-- The record the root-wildcard lookup produces for the query com. -/
def recordWildCom : TrustRecord :=
  { name := nameCom, ttl := 3600, rtype := .A, rdata := .A [9, 9, 9, 9] }

/-- The record the exact-name lookup produces for www.com A. -/
def recordWwwComA : TrustRecord :=
  { name := nameWwwCom, ttl := 60, rtype := .A, rdata := .A [1, 2, 3, 4] }

/-- The CNAME-hint record for www.com. -/
def recordWwwComCname : TrustRecord :=
  { name := nameWwwCom, ttl := 3600, rtype := .CNAME,
    rdata := .CNAME ⟨["host".toList, "com".toList]⟩ }

/-- An accepted record name of 302 characters: 300 letters, a dot, the
sentinel. -/
def longName : Str := List.replicate 300 'a' ++ ".@".toList

/-- An A query for a name under no configured zone. -/
def queryNxOrgA : Query := { name := ⟨["nx".toList, "org".toList]⟩, query_type := .A }

/-- A two-query request: www.com A then a name under no configured zone. -/
def requestTwoQueries : Message :=
  { Message.new with id := 21, queries := [queryWwwComA, queryNxOrgA] }

/-- The response the handler returns for requestQueryA against an empty
authority table. -/
def responseQueryA : Message :=
  { Message.new with
    id := 9, message_type := .Response,
    response_code := .NXDomain, queries := [queryWwwComA] }

/-- The response the handler produces for requestTwoQueries against the com
authority and the www store: answers from the first question preserved, the
response code set by the second. -/
def responseTwoQueries : Message :=
  { Message.new with
    id := 21, message_type := .Response, response_code := .NXDomain,
    authoritative := true,
    queries := [queryWwwComA, queryNxOrgA],
    answers := [recordWwwComA, recordWwwComCname],
    name_servers := [nsRecordCom] }

/-! Helper lemmas. -/

/-- Lowercasing a character is idempotent. -/
theorem charToLower_idem (c : Char) : Char.toLower (Char.toLower c) = Char.toLower c := by
  by_cases h : c.toNat ≥ 65 ∧ c.toNat ≤ 90
  · have hvalid : (c.toNat + 32).isValidChar := by
      left
      have := h.2
      omega
    have h1 : Char.toLower c = Char.ofNat (c.toNat + 32) := by
      simp only [Char.toLower]
      rw [if_pos h]
    have htn : (Char.ofNat (c.toNat + 32)).toNat = c.toNat + 32 := by
      unfold Char.ofNat
      rw [dif_pos hvalid]
      rfl
    rw [h1]
    simp only [Char.toLower, htn]
    rw [if_neg]
    have := h.1
    omega
  · have h1 : Char.toLower c = c := by
      simp only [Char.toLower]
      rw [if_neg h]
    rw [h1, h1]

/-- Lowercasing a string is idempotent. -/
theorem strLower_idem (s : Str) : strLower (strLower s) = strLower s := by
  unfold strLower
  rw [List.map_map]
  apply List.map_congr_left
  intro c _
  exact charToLower_idem c

/-- The accumulator of the parse_from_records value loop only ever grows: the
outcome is the outcome from the empty accumulator, appended. -/
theorem parse_go_acc (record_ttl : Nat) (qc : TrustName) (kind : RecordType)
    (type_data : TrustRecordType) (ttl : Option Nat) (values : List Str) :
    ∀ acc, parse_from_records_go record_ttl qc kind type_data ttl values acc =
      Res.map (fun l => acc ++ l)
        (parse_from_records_go record_ttl qc kind type_data ttl values []) := by
  induction values with
  | nil => intro acc; simp [parse_from_records_go, Res.map]
  | cons v vs ih =>
    intro acc
    simp only [parse_from_records_go]
    cases hv : RecordValue.to_trust v kind with
    | panicked => simp [Res.map]
    | invalid => rw [ih acc]
    | ok value_data =>
      dsimp only
      rw [ih (acc ++ [({ name := qc, ttl := ttl.getD record_ttl,
                         rtype := type_data, rdata := value_data } : TrustRecord)]),
          ih ([] ++ [({ name := qc, ttl := ttl.getD record_ttl,
                        rtype := type_data, rdata := value_data } : TrustRecord)])]
      cases parse_from_records_go record_ttl qc kind type_data ttl vs [] <;>
        simp [Res.map, List.append_assoc]

/-- parse_from_records appends onto its incoming record list. -/
theorem parse_from_records_acc (record_ttl : Nat) (qc : TrustName)
    (record : StoreRecord) (acc : List TrustRecord) :
    parse_from_records record_ttl qc record acc =
      Res.map (fun l => acc ++ l) (parse_from_records record_ttl qc record []) := by
  unfold parse_from_records
  cases record.kind.to_trust with
  | error e => simp [Res.map]
  | ok type_data => exact parse_go_acc record_ttl qc record.kind type_data record.ttl record.values acc

/-- Every record the value loop emits either was already accumulated or is
tagged with the client-facing query name. -/
theorem parse_go_names (record_ttl : Nat) (qc : TrustName) (kind : RecordType)
    (type_data : TrustRecordType) (ttl : Option Nat) (values : List Str) :
    ∀ acc out, parse_from_records_go record_ttl qc kind type_data ttl values acc = .ok out →
      ∀ r ∈ out, r ∈ acc ∨ r.name = qc := by
  induction values with
  | nil =>
    intro acc out h r hr
    simp only [parse_from_records_go] at h
    cases h
    exact Or.inl hr
  | cons v vs ih =>
    intro acc out h r hr
    simp only [parse_from_records_go] at h
    cases hv : RecordValue.to_trust v kind with
    | panicked => rw [hv] at h; cases h
    | invalid => rw [hv] at h; exact ih acc out h r hr
    | ok value_data =>
      rw [hv] at h
      cases ih _ out h r hr with
      | inl hmem =>
        rw [List.mem_append] at hmem
        cases hmem with
        | inl hacc => exact Or.inl hacc
        | inr hone =>
          simp only [List.mem_singleton] at hone
          subst hone
          exact Or.inr rfl
      | inr hname => exact Or.inr hname

/-- Every record parse_from_records emits either was already accumulated or
is tagged with the client-facing query name. -/
theorem parse_from_records_names (record_ttl : Nat) (qc : TrustName)
    (record : StoreRecord) (acc out : List TrustRecord)
    (h : parse_from_records record_ttl qc record acc = .ok out) :
    ∀ r ∈ out, r ∈ acc ∨ r.name = qc := by
  unfold parse_from_records at h
  cases hk : record.kind.to_trust with
  | error e =>
    rw [hk] at h
    cases h
    intro r hr
    exact Or.inl hr
  | ok type_data =>
    rw [hk] at h
    exact parse_go_names record_ttl qc record.kind type_data record.ttl record.values acc out h

/-- Every record a successful store attempt answers carries the client-facing
query name. -/
theorem attempt_names (record_ttl : Nat) (store : Store) (authority : Authority)
    (qc qe : TrustName) (qt : TrustRecordType) (rs : List TrustRecord)
    (h : records_from_store_attempt record_ttl store authority qc qe qt = .ok (some rs)) :
    ∀ r ∈ rs, r.name = qc := by
  unfold records_from_store_attempt at h
  split at h
  case h_2 => simp at h
  case h_1 zone_name record_name record_type hz hr ht =>
    dsimp only at h
    split at h
    · exact absurd h (by simp)
    case h_2 records hdirect =>
      split at h
      · exact absurd h (by simp)
      case h_2 records2 hhint =>
        have hmem : ∀ r ∈ records, r.name = qc := by
          split at hdirect
          case h_1 record hstore =>
            intro r hrmem
            cases parse_from_records_names record_ttl qc record [] records hdirect r hrmem with
            | inl habs => cases habs
            | inr hname => exact hname
          case h_2 =>
            cases hdirect
            intro r hrmem
            cases hrmem
        have hmem2 : ∀ r ∈ records2, r.name = qc := by
          split at hhint
          · split at hhint
            case h_1 record_cname hstore =>
              intro r hrmem
              cases parse_from_records_names record_ttl qc record_cname records records2 hhint r hrmem with
              | inl hacc => exact hmem r hacc
              | inr hname => exact hname
            case h_2 =>
              cases hhint
              exact hmem
          · cases hhint
            exact hmem
        split at h
        · cases h
          exact hmem2
        · simp at h

/-- One loop iteration of lookup only rewrites the response code and the
authoritative bit and appends to the answer and authority sections: id,
opcode, message type and the question section pass through. -/
theorem step_frame (record_ttl : Nat) (store : Store) (authorities : AuthTable)
    (response : Message) (query : Query) (out : Message)
    (h : lookupQueryStep record_ttl store authorities response query = .ok out) :
    out.id = response.id ∧ out.message_type = response.message_type ∧
    out.op_code = response.op_code ∧ out.queries = response.queries ∧
    ∃ ans2 ns2, out.answers = response.answers ++ ans2 ∧
      out.name_servers = response.name_servers ++ ns2 := by
  have hserve : ∀ (rs : List TrustRecord) (authority : Authority),
      out = serve_response_records response rs authority →
      out.id = response.id ∧ out.message_type = response.message_type ∧
      out.op_code = response.op_code ∧ out.queries = response.queries ∧
      ∃ ans2 ns2, out.answers = response.answers ++ ans2 ∧
        out.name_servers = response.name_servers ++ ns2 := by
    intro rs authority hout
    subst hout
    unfold serve_response_records
    split
    · exact ⟨rfl, rfl, rfl, rfl, rs, [], rfl, by simp⟩
    · exact ⟨rfl, rfl, rfl, rfl, rs, authority.ns, rfl, rfl⟩
  unfold lookupQueryStep at h
  cases hfind : find_auth_recurse authorities query.name.labels with
  | none =>
    rw [hfind] at h
    dsimp only at h
    cases h
    exact ⟨rfl, rfl, rfl, rfl, [], [], by simp, by simp⟩
  | some authority =>
    rw [hfind] at h
    dsimp only at h
    by_cases hie : (authority.search query).is_empty
    · rw [if_neg (by simp [hie])] at h
      cases hrem : records_from_store record_ttl store authority query with
      | panicked => rw [hrem] at h; exact absurd h (by simp)
      | ok found =>
        rw [hrem] at h
        cases found with
        | some records_remote =>
          dsimp only at h
          cases h
          exact hserve records_remote authority rfl
        | none =>
          dsimp only at h
          cases hloc : authority.search query with
          | Records records => rw [hloc] at hie; simp [AuthLookup.is_empty] at hie
          | NoName =>
            rw [hloc] at h
            dsimp only at h
            rw [if_pos rfl] at h
            split at h
            · cases h
              exact ⟨rfl, rfl, rfl, rfl, [], [], by simp, by simp⟩
            · cases h
              exact ⟨rfl, rfl, rfl, rfl, [], authority.soa, by simp, rfl⟩
          | NameExists =>
            rw [hloc] at h
            dsimp only at h
            have hcode : (if AuthLookup.NameExists = AuthLookup.NoName
                then ResponseCode.NXDomain else ResponseCode.NoError) = ResponseCode.NoError := by
              simp
            rw [hcode] at h
            split at h
            · cases h
              exact ⟨rfl, rfl, rfl, rfl, [], [], by simp, by simp⟩
            · cases h
              exact ⟨rfl, rfl, rfl, rfl, [], authority.soa, by simp, rfl⟩
    · rw [if_pos (by simp [Bool.not_eq_true] at hie ⊢; exact hie)] at h
      cases h
      exact hserve (authority.search query).records authority rfl

/-- Running the query loop over concatenated question lists is running it
over the first list and then the second: the loop is sequential. -/
theorem loop_append (record_ttl : Nat) (store : Store) (authorities : AuthTable)
    (qs1 qs2 : List Query) (response : Message) :
    lookupLoop record_ttl store authorities (qs1 ++ qs2) response =
      match lookupLoop record_ttl store authorities qs1 response with
      | .panicked => .panicked
      | .ok mid => lookupLoop record_ttl store authorities qs2 mid := by
  induction qs1 generalizing response with
  | nil => simp [lookupLoop]
  | cons q qs ih =>
    simp only [List.cons_append, lookupLoop]
    cases lookupQueryStep record_ttl store authorities response q with
    | panicked => rfl
    | ok mid => exact ih mid

/-- The query loop preserves id, opcode, message type and questions, and only
appends to the answer and authority sections. -/
theorem loop_frame (record_ttl : Nat) (store : Store) (authorities : AuthTable)
    (qs : List Query) (response out : Message)
    (h : lookupLoop record_ttl store authorities qs response = .ok out) :
    out.id = response.id ∧ out.message_type = response.message_type ∧
    out.op_code = response.op_code ∧ out.queries = response.queries ∧
    ∃ ans2 ns2, out.answers = response.answers ++ ans2 ∧
      out.name_servers = response.name_servers ++ ns2 := by
  induction qs generalizing response with
  | nil =>
    simp only [lookupLoop] at h
    cases h
    exact ⟨rfl, rfl, rfl, rfl, [], [], by simp, by simp⟩
  | cons q qs ih =>
    simp only [lookupLoop] at h
    cases hstep : lookupQueryStep record_ttl store authorities response q with
    | panicked => rw [hstep] at h; cases h
    | ok mid =>
      rw [hstep] at h
      obtain ⟨hid, hmt, hop, hq, ans1, ns1, hans1, hns1⟩ :=
        step_frame record_ttl store authorities response q mid hstep
      obtain ⟨hid2, hmt2, hop2, hq2, ans2, ns2, hans2, hns2⟩ := ih mid h
      refine ⟨hid2.trans hid, hmt2.trans hmt, hop2.trans hop, hq2.trans hq,
        ans1 ++ ans2, ns1 ++ ns2, ?_, ?_⟩
      · rw [hans2, hans1, List.append_assoc]
      · rw [hns2, hns1, List.append_assoc]

/-- The response code a non-panicking loop iteration leaves on the message is
stepCode, which does not depend on the incoming response message. -/
theorem step_code (record_ttl : Nat) (store : Store) (authorities : AuthTable)
    (response : Message) (query : Query) (out : Message)
    (h : lookupQueryStep record_ttl store authorities response query = .ok out) :
    out.response_code = stepCode record_ttl store authorities query := by
  unfold lookupQueryStep at h
  cases hfind : find_auth_recurse authorities query.name.labels with
  | none =>
    rw [hfind] at h
    unfold stepCode
    rw [hfind]
    dsimp only at h
    cases h
    rfl
  | some authority =>
    rw [hfind] at h
    unfold stepCode
    rw [hfind]
    dsimp only at h
    dsimp only
    by_cases hie : (authority.search query).is_empty
    · rw [if_neg (by simp [hie])] at h
      rw [if_neg (by simp [hie])]
      cases hrem : records_from_store record_ttl store authority query with
      | panicked =>
        try rw [hrem] at h
        dsimp only at h
        exact absurd h (by simp)
      | ok found =>
        try rw [hrem] at h
        try rw [hrem]
        cases found with
        | some records_remote =>
          dsimp only at h ⊢
          cases h
          unfold serve_response_records
          split <;> rfl
        | none =>
          dsimp only at h ⊢
          cases hloc : authority.search query with
          | Records records => rw [hloc] at hie; simp [AuthLookup.is_empty] at hie
          | NoName =>
            try rw [hloc] at h
            try dsimp only at h
            try rw [if_pos rfl] at h
            try rw [hloc]
            rw [if_pos rfl]
            split at h
            · cases h; rfl
            · cases h; rfl
          | NameExists =>
            have hcode : (if AuthLookup.NameExists = AuthLookup.NoName
                then ResponseCode.NXDomain else ResponseCode.NoError) = ResponseCode.NoError := by
              simp
            try rw [hloc] at h
            try dsimp only at h
            try rw [hcode] at h
            try rw [hloc]
            rw [hcode]
            split at h
            · cases h; rfl
            · cases h; rfl
    · rw [if_pos (by simp [Bool.not_eq_true] at hie ⊢; exact hie)] at h
      rw [if_pos (by simp [Bool.not_eq_true] at hie ⊢; exact hie)]
      cases h
      unfold serve_response_records
      split <;> rfl

/-! Claim theorems. -/

/-- C1 counterexample: a message of type Query with opcode Update carries one
question, and the NotImp response the handler returns for it has an empty
question section while keeping the request's id, so the claim that every
dispatch outcome echoes every question of the request is false at this
input. -/
theorem C1_counterexample :
    handle_request 3600 emptyStore [] requestUpdate =
      Res.ok (Message.error_msg 7 OpCode.Update ResponseCode.NotImp) ∧
    (Message.error_msg 7 OpCode.Update ResponseCode.NotImp).queries = [] ∧
    requestUpdate.queries = [queryWwwComA] :=
  ⟨rfl, rfl, rfl⟩

/-- C1 amended: every response message the handler returns carries the
request's id; the Query/Query dispatch echoes every question of the request,
while the NotImp dispatch outcomes (non-Query opcode, or a message of type
Response) return an empty question section. -/
theorem C1_id_and_questions (record_ttl : Nat) (store : Store)
    (authorities : AuthTable) (request response : Message)
    (h : handle_request record_ttl store authorities request = Res.ok response) :
    response.id = request.id ∧
    response.queries = (if request.message_type = MessageType.Query ∧
                           request.op_code = OpCode.Query
                        then request.queries else []) := by
  unfold handle_request at h
  cases hmt : request.message_type with
  | Response =>
    try rw [hmt] at h
    dsimp only at h
    cases h
    rw [if_neg (by simp [hmt])]
    exact ⟨rfl, rfl⟩
  | Query =>
    try rw [hmt] at h
    dsimp only at h
    cases hop : request.op_code with
    | Query =>
      try rw [hop] at h
      dsimp only at h
      unfold lookup at h
      obtain ⟨hid, hmt2, hop2, hq, _⟩ :=
        loop_frame record_ttl store authorities request.queries (initResponse request) response h
      rw [if_pos (by simp [hmt, hop])]
      exact ⟨hid, hq⟩
    | Update =>
      try rw [hop] at h
      dsimp only at h
      cases h
      rw [if_neg (by simp [hop])]
      exact ⟨rfl, rfl⟩
    | Status =>
      try rw [hop] at h
      dsimp only at h
      cases h
      rw [if_neg (by simp [hop])]
      exact ⟨rfl, rfl⟩
    | Notify =>
      try rw [hop] at h
      dsimp only at h
      cases h
      rw [if_neg (by simp [hop])]
      exact ⟨rfl, rfl⟩

/-- C1 witness: the amended statement at a concrete lookup request. -/
theorem C1_id_and_questions_witness :
    responseQueryA.id = requestQueryA.id ∧
    responseQueryA.queries = (if requestQueryA.message_type = MessageType.Query ∧
                                 requestQueryA.op_code = OpCode.Query
                              then requestQueryA.queries else []) :=
  C1_id_and_questions 3600 emptyStore [] requestQueryA responseQueryA (by decide)

set_option maxRecDepth 4096 in
/-- C2: handling a decoded request can panic instead of producing a response:
with a store TXT record whose value is 254 ASCII characters followed by one
two-byte character, the TXT conversion calls str::split_at at byte 255 inside
that character's encoding and the panic propagates out of lookup. -/
theorem C2_handler_panics :
    handle_request 3600 badTxtStore authsCom requestWwwComTXT = Res.panicked := by
  decide

set_option maxRecDepth 4096 in
/-- C3: converting a non-empty TXT value can fail by panic rather than
succeed: on a value of 254 ASCII characters followed by one two-byte
character, byte index 255 is not a character boundary and str::split_at
panics. -/
theorem C3_txt_conversion_panics :
    RecordValue.to_trust badTxtValue2 RecordType.TXT = ConvResult.panicked := by
  decide

/-- C4: when an authority was found, the store (exact name and wildcard)
produced nothing and the local search answered NoName respectively
NameExists, the loop iteration sets the response code to NXDomain
respectively NoError and appends the zone's SOA records to the authority
section (a zone without SOA appends nothing). -/
theorem C4_negative_response (record_ttl : Nat) (store : Store)
    (authorities : AuthTable) (response : Message) (query : Query)
    (authority : Authority)
    (hfind : find_auth_recurse authorities query.name.labels = some authority)
    (hrem : records_from_store record_ttl store authority query = Res.ok none)
    (hloc : authority.search query = AuthLookup.NoName ∨
            authority.search query = AuthLookup.NameExists) :
    lookupQueryStep record_ttl store authorities response query =
      Res.ok { response with
        response_code := if authority.search query = AuthLookup.NoName
                         then ResponseCode.NXDomain else ResponseCode.NoError,
        name_servers := response.name_servers ++ authority.soa } := by
  by_cases hsoa : authority.soa.isEmpty
  · have hs : authority.soa = [] := by simpa using hsoa
    cases hloc with
    | inl h1 => simp [lookupQueryStep, hfind, h1, hrem, AuthLookup.is_empty, hs]
    | inr h2 => simp [lookupQueryStep, hfind, h2, hrem, AuthLookup.is_empty, hs]
  · cases hloc with
    | inl h1 => simp [lookupQueryStep, hfind, h1, hrem, AuthLookup.is_empty, hsoa]
    | inr h2 => simp [lookupQueryStep, hfind, h2, hrem, AuthLookup.is_empty, hsoa]

/-- C4 witness: the negative path at a concrete query: authority for com
found, empty store, the local search answers NoName; the response code is
NXDomain and the SOA record is appended. -/
theorem C4_negative_response_witness :
    lookupQueryStep 3600 emptyStore authsCom Message.new queryWwwComA =
      Res.ok { Message.new with
        response_code := ResponseCode.NXDomain,
        name_servers := [soaRecordCom] } := by
  have h := C4_negative_response 3600 emptyStore authsCom Message.new queryWwwComA
    authorityComNoName (by rfl) (by decide) (Or.inl rfl)
  simpa using h

/-- C5: when the three projections succeed, the store attempt answers the
expanded records of the requested-type fetch followed, exactly when the
requested type is not CNAME, by the expanded records of the CNAME fetch at
the same (zone, name) key; the attempt succeeds when the concatenation is
non-empty. For a CNAME query only the one fetch contributes. -/
theorem C5_cname_hint (record_ttl : Nat) (store : Store) (authority : Authority)
    (qc qe : TrustName) (qt : TrustRecordType)
    (zone_name : ZoneName) (record_name : RecordName) (record_type : RecordType)
    (la lc : List TrustRecord)
    (hz : ZoneName.from_trust authority.origin = some zone_name)
    (hr : RecordName.from_trust authority.origin qe = some record_name)
    (ht : RecordType.from_trust qt = some record_type)
    (hdirect : (match store zone_name record_name record_type with
                | some record => parse_from_records record_ttl qc record []
                | none => Res.ok []) = Res.ok la)
    (hhint : (match store zone_name record_name RecordType.CNAME with
              | some record => parse_from_records record_ttl qc record []
              | none => Res.ok []) = Res.ok lc) :
    records_from_store_attempt record_ttl store authority qc qe qt =
      Res.ok (if ¬ (la ++ (if record_type ≠ RecordType.CNAME then lc else [])).isEmpty
              then some (la ++ (if record_type ≠ RecordType.CNAME then lc else []))
              else none) := by
  unfold records_from_store_attempt
  rw [hz, hr, ht]
  dsimp only
  rw [hdirect]
  dsimp only
  by_cases hcn : record_type = RecordType.CNAME
  · rw [if_neg (by simp [hcn])]
    have hif : (if record_type ≠ RecordType.CNAME then lc else []) = [] := by
      simp [hcn]
    rw [hif, List.append_nil]
  · rw [if_pos hcn]
    have hif : (if record_type ≠ RecordType.CNAME then lc else []) = lc := by
      simp [hcn]
    rw [hif]
    cases hsc : store zone_name record_name RecordType.CNAME with
    | some record_cname =>
      try rw [hsc] at hhint
      try dsimp only at hhint
      dsimp only
      rw [parse_from_records_acc record_ttl qc record_cname la, hhint]
      rfl
    | none =>
      try rw [hsc] at hhint
      try dsimp only at hhint
      cases hhint
      dsimp only
      rw [List.append_nil]

/-- C5 witness: the CNAME-hint scenario at a concrete store: the A fetch and
the CNAME fetch at (com, www.@) both answer, and the attempt returns the A
record first, the CNAME record second. -/
theorem C5_cname_hint_witness :
    records_from_store_attempt 3600 storeWwwCom authorityComNoName
      nameWwwCom nameWwwCom TrustRecordType.A =
      Res.ok (some [recordWwwComA, recordWwwComCname]) := by
  have h := C5_cname_hint 3600 storeWwwCom authorityComNoName
    nameWwwCom nameWwwCom TrustRecordType.A
    ⟨"com.".toList⟩ ⟨"www.@".toList⟩ RecordType.A
    [recordWwwComA] [recordWwwComCname]
    (by decide) (by decide) (by decide) (by decide) (by decide)
  simpa using h

/-- C6: every record a successful store lookup (exact name or wildcard)
returns is owned by the client's queried name. -/
theorem C6_owner_name (record_ttl : Nat) (store : Store) (authority : Authority)
    (query : Query) (records : List TrustRecord)
    (h : records_from_store record_ttl store authority query = Res.ok (some records)) :
    ∀ r ∈ records, r.name = query.name := by
  unfold records_from_store at h
  cases hex : records_from_store_attempt record_ttl store authority
      query.name query.name query.query_type with
  | panicked =>
    try rw [hex] at h
    dsimp only at h
    exact absurd h (by simp)
  | ok found =>
    try rw [hex] at h
    cases found with
    | some rs =>
      dsimp only at h
      injection h with h1
      injection h1 with h2
      subst h2
      exact attempt_names record_ttl store authority query.name query.name
        query.query_type rs hex
    | none =>
      dsimp only at h
      cases haf : afterFirstDot (trustNameToString query.name) with
      | none =>
        try rw [haf] at h
        dsimp only at h
        exact absurd h (by simp)
      | some base_name =>
        try rw [haf] at h
        dsimp only at h
        cases hp : trustNameParse ('*' :: '.' :: base_name) with
        | none =>
          try rw [hp] at h
          dsimp only at h
          exact absurd h (by simp)
        | some wildcard_name =>
          try rw [hp] at h
          dsimp only at h
          by_cases hne : wildcard_name ≠ query.name
          · rw [if_pos hne] at h
            exact attempt_names record_ttl store authority query.name wildcard_name
              query.query_type records h
          · rw [if_neg hne] at h
            exact absurd h (by simp)

/-- C6 witness: in the concrete CNAME-hint scenario the returned records are
owned by the queried name www.com. -/
theorem C6_owner_name_witness : recordWwwComA.name = queryWwwComA.name :=
  C6_owner_name 3600 storeWwwCom authorityComNoName queryWwwComA
    [recordWwwComA, recordWwwComCname] (by decide) recordWwwComA (by decide)

/-- The text after the first dot of l ++ "." ++ r is r when l has no dot. -/
theorem afterFirstDot_append (l r : Str) (hl : '.' ∉ l) :
    afterFirstDot (l ++ '.' :: r) = some r := by
  induction l with
  | nil => simp [afterFirstDot]
  | cons c cs ih =>
    have hc : ¬ c = '.' := fun hc => hl (hc ▸ List.mem_cons_self c cs)
    simp only [List.cons_append, afterFirstDot]
    rw [if_neg hc]
    exact ih (fun hm => hl (List.mem_cons_of_mem c hm))

/-- C7 counterexample: a queried name of a single label reaches the wildcard
store lookup: on the query com, the exact-name attempt produces nothing, the
queried name's parent has no label, and yet the lookup answers from the
root-wildcard store key (com, *.@, A). -/
theorem C7_counterexample :
    records_from_store 3600 storeWildRoot authorityComNoName queryComA =
      Res.ok (some [recordWildCom]) ∧
    queryComA.name.labels.length = 1 ∧
    records_from_store_attempt 3600 storeWildRoot authorityComNoName
      queryComA.name queryComA.name queryComA.query_type = Res.ok none :=
  ⟨by decide, rfl, by decide⟩

/-- C7 amended: the wildcard attempt is made only when the exact-name attempt
produced nothing (a positive exact answer is returned unchanged), and only
when the derived wildcard name differs from the queried name; the parent is
not required to have a label: a query whose name is one dot-free label other
than the wildcard label proceeds to a wildcard attempt whose effective name
is the root wildcard. -/
theorem C7_wildcard_attempt (record_ttl : Nat) (store : Store)
    (authority : Authority) (query : Query) :
    (∀ rs, records_from_store_attempt record_ttl store authority
        query.name query.name query.query_type = Res.ok (some rs) →
      records_from_store record_ttl store authority query = Res.ok (some rs)) ∧
    (∀ l, query.name.labels = [l] → l ≠ [] → '.' ∉ l → l ≠ ['*'] →
      records_from_store_attempt record_ttl store authority
        query.name query.name query.query_type = Res.ok none →
      records_from_store record_ttl store authority query =
        records_from_store_attempt record_ttl store authority
          query.name ⟨[['*']]⟩ query.query_type) := by
  constructor
  · intro rs hex
    unfold records_from_store
    rw [hex]
  · intro l hl hne hdot hstar hex
    unfold records_from_store
    rw [hex]
    dsimp only
    have hts : trustNameToString query.name = l ++ '.' :: [] := by
      simp [trustNameToString, hl]
    rw [hts, afterFirstDot_append l [] hdot]
    dsimp only
    have hp : trustNameParse ('*' :: '.' :: []) = some ⟨[['*']]⟩ := by decide
    rw [hp]
    dsimp only
    rw [if_pos]
    intro he
    have hlab : (⟨[['*']]⟩ : TrustName).labels = query.name.labels := by rw [he]
    rw [hl] at hlab
    exact hstar (by injection hlab with h1 h2; exact h1.symm)

/-- The middle matcher accepts exactly a non-empty class run followed by a
dot. -/
theorem middleDotPart_iff (t : Str) :
    middleDotPart t = true ↔
      ∃ m0, t = m0 ++ ['.'] ∧ m0 ≠ [] ∧ ∀ c ∈ m0, recordNameForbidden c = false := by
  constructor
  · intro h
    simp only [middleDotPart, Bool.and_eq_true, decide_eq_true_eq,
      List.all_eq_true] at h
    obtain ⟨⟨h1, h2⟩, h3⟩ := h
    exact ⟨t.dropLast, (List.dropLast_append_getLast? '.' h1).symm, h2, h3⟩
  · rintro ⟨m0, rfl, hne, hall⟩
    simp only [middleDotPart, List.getLast?_concat, List.dropLast_concat,
      Bool.and_eq_true, decide_eq_true_eq, List.all_eq_true]
    exact ⟨⟨trivial, hne⟩, hall⟩

/-- The executable matcher accepts exactly the language of
RECORD_NAME_REGEX as stated declaratively by RegexSpec. -/
theorem recordNameValidate_iff (s : Str) :
    recordNameValidate s = true ↔ RegexSpec s := by
  constructor
  · intro h
    simp only [recordNameValidate, Bool.and_eq_true, Bool.or_eq_true,
      decide_eq_true_eq] at h
    obtain ⟨h1, h2⟩ := h
    have hs : s.dropLast ++ ['@'] = s := List.dropLast_append_getLast? '@' h1
    cases h2 with
    | inl hopt =>
      simp only [optMiddle, Bool.or_eq_true, List.isEmpty_iff] at hopt
      cases hopt with
      | inl hemp =>
        refine ⟨[], [], ?_, Or.inl rfl, Or.inl rfl⟩
        rw [hemp] at hs
        simpa using hs.symm
      | inr hmid =>
        obtain ⟨m0, hm, hne, hall⟩ := (middleDotPart_iff _).1 hmid
        refine ⟨[], s.dropLast, ?_, Or.inl rfl, Or.inr ⟨m0, hm, hne, hall⟩⟩
        rw [List.nil_append]
        exact hs.symm
    | inr hstar =>
      obtain ⟨htake, hopt⟩ := hstar
      have hsplit : s.dropLast = ['*', '.'] ++ s.dropLast.drop 2 := by
        conv_lhs => rw [← List.take_append_drop 2 s.dropLast]
        rw [htake]
      have hshape : s = ['*', '.'] ++ s.dropLast.drop 2 ++ ['@'] := by
        conv_lhs => rw [← hs, hsplit]
      simp only [optMiddle, Bool.or_eq_true, List.isEmpty_iff] at hopt
      cases hopt with
      | inl hemp => exact ⟨['*', '.'], s.dropLast.drop 2, hshape, Or.inr rfl, Or.inl hemp⟩
      | inr hmid =>
        obtain ⟨m0, hm, hne, hall⟩ := (middleDotPart_iff _).1 hmid
        exact ⟨['*', '.'], s.dropLast.drop 2, hshape, Or.inr rfl, Or.inr ⟨m0, hm, hne, hall⟩⟩
  · rintro ⟨p, m, rfl, hp, hm⟩
    have h1 : (p ++ m ++ ['@']).getLast? = some '@' := List.getLast?_concat _
    have h2 : (p ++ m ++ ['@']).dropLast = p ++ m := List.dropLast_concat
    have hoptm : optMiddle m = true := by
      cases hm with
      | inl hemp => simp [optMiddle, hemp]
      | inr hex =>
        obtain ⟨m0, rfl, hne, hall⟩ := hex
        have := (middleDotPart_iff (m0 ++ ['.'])).2 ⟨m0, rfl, hne, hall⟩
        simp [optMiddle, this]
    simp only [recordNameValidate, Bool.and_eq_true, Bool.or_eq_true, decide_eq_true_eq]
    refine ⟨h1, ?_⟩
    rw [h2]
    cases hp with
    | inl hpe =>
      subst hpe
      rw [List.nil_append]
      exact Or.inl hoptm
    | inr hpstar =>
      subst hpstar
      right
      exact ⟨rfl, hoptm⟩

set_option maxRecDepth 4096 in
/-- C8 counterexample: from_str accepts a 302-character name, longer than
the claimed 253-character bound, and also accepts a name with consecutive
dots, which the canonical label grammar cannot produce. -/
theorem C8_counterexample :
    RecordName.from_str longName = some ⟨longName⟩ ∧
    253 < longName.length ∧
    (RecordName.from_str ("a..@".toList)).isSome = true := by
  refine ⟨by decide, by decide, by decide⟩

/-- C8 amended: from_str returns Some exactly for the strings matching
RECORD_NAME_REGEX (whose middle class includes the dot, so consecutive dots
are accepted, and which enforces no length bound), and the returned name is
the lowercased input, always ending in the @ sentinel and invariant under
further lowercasing. -/
theorem C8_from_str_spec (s : Str) :
    ((RecordName.from_str s).isSome = true ↔ RegexSpec s) ∧
    (∀ r, RecordName.from_str s = some r →
      r.raw = strLower s ∧ r.raw.getLast? = some '@' ∧ strLower r.raw = r.raw) := by
  constructor
  · unfold RecordName.from_str
    by_cases hv : recordNameValidate s = true
    · rw [if_pos hv]
      constructor
      · intro _
        exact (recordNameValidate_iff s).1 hv
      · intro _
        rfl
    · rw [if_neg hv]
      constructor
      · intro hfalse
        simp at hfalse
      · intro hr
        exact absurd ((recordNameValidate_iff s).2 hr) hv
  · intro r hr
    unfold RecordName.from_str at hr
    split at hr
    case isTrue hv =>
      injection hr with hr'
      subst hr'
      refine ⟨rfl, ?_, strLower_idem s⟩
      have h1 : s.getLast? = some '@' := by
        simp only [recordNameValidate, Bool.and_eq_true, decide_eq_true_eq] at hv
        exact hv.1
      show (strLower s).getLast? = some '@'
      unfold strLower
      rw [List.getLast?_map, h1]
      rfl
    case isFalse => cases hr

/-- C9: a request whose questions split as qs followed by a last question is
processed sequentially: the final response is the outcome of running the last
question from the intermediate message reached after qs, the answers and
authority records accumulated for the earlier questions are preserved as
prefixes of the final sections, and the final response code is the one the
last question's outcome assigns (stepCode does not depend on the accumulated
message). -/
theorem C9_multi_question (record_ttl : Nat) (store : Store)
    (authorities : AuthTable) (request : Message) (qs : List Query)
    (qlast : Query) (response : Message)
    (hq : request.queries = qs ++ [qlast])
    (h : lookup record_ttl store authorities request = Res.ok response) :
    ∃ mid, lookupLoop record_ttl store authorities qs (initResponse request) = Res.ok mid ∧
      lookupQueryStep record_ttl store authorities mid qlast = Res.ok response ∧
      (∃ ans2 ns2, response.answers = mid.answers ++ ans2 ∧
        response.name_servers = mid.name_servers ++ ns2) ∧
      response.response_code = stepCode record_ttl store authorities qlast := by
  unfold lookup at h
  rw [hq, loop_append] at h
  cases hmid : lookupLoop record_ttl store authorities qs (initResponse request) with
  | panicked =>
    try rw [hmid] at h
    dsimp only at h
    exact absurd h (by simp)
  | ok mid =>
    try rw [hmid] at h
    dsimp only at h
    simp only [lookupLoop] at h
    cases hstep : lookupQueryStep record_ttl store authorities mid qlast with
    | panicked =>
      try rw [hstep] at h
      dsimp only at h
      exact absurd h (by simp)
    | ok fin =>
      try rw [hstep] at h
      dsimp only at h
      injection h with h2
      subst h2
      obtain ⟨_, _, _, _, ans2, ns2, ha, hn⟩ :=
        step_frame record_ttl store authorities mid qlast fin hstep
      exact ⟨mid, rfl, hstep, ⟨ans2, ns2, ha, hn⟩,
        step_code record_ttl store authorities mid qlast fin hstep⟩

/-- C9 witness: the two-question request at the concrete store: the first
question's answers and authority records survive into the final response,
whose response code NXDomain is the second question's outcome. -/
theorem C9_multi_question_witness :
    ∃ mid, lookupLoop 3600 storeWwwCom authsCom [queryWwwComA]
        (initResponse requestTwoQueries) = Res.ok mid ∧
      lookupQueryStep 3600 storeWwwCom authsCom mid queryNxOrgA =
        Res.ok responseTwoQueries ∧
      (∃ ans2 ns2, responseTwoQueries.answers = mid.answers ++ ans2 ∧
        responseTwoQueries.name_servers = mid.name_servers ++ ns2) ∧
      responseTwoQueries.response_code = stepCode 3600 storeWwwCom authsCom queryNxOrgA :=
  C9_multi_question 3600 storeWwwCom authsCom requestTwoQueries [queryWwwComA]
    queryNxOrgA responseTwoQueries rfl (by decide)

/-- C10: when the printed, lowercased query name does not satisfy the
stripping condition (last character a dot and the printed lowercased zone a
suffix), from_trust appends the @ sentinel to the whole lowercased name and,
when that string passes the name grammar, returns it, so store lookups can be
keyed by a name outside the zone. -/
theorem C10_from_trust_outside_zone (zone_name query_name : TrustName)
    (hcond : ¬ (((strLower (trustNameToString query_name)).getLast? = some '.' &&
                 (strLower (trustNameToString zone_name)).isSuffixOf
                   (strLower (trustNameToString query_name))) = true))
    (hval : recordNameValidate (strLower (trustNameToString query_name) ++ ['@']) = true) :
    RecordName.from_trust zone_name query_name =
      some ⟨strLower (trustNameToString query_name) ++ ['@']⟩ := by
  have hidem : strLower (strLower (trustNameToString query_name) ++ ['@']) =
      strLower (trustNameToString query_name) ++ ['@'] := by
    unfold strLower
    rw [List.map_append]
    unfold strLower at *
    rw [show (List.map Char.toLower (trustNameToString query_name)).map Char.toLower =
          List.map Char.toLower (trustNameToString query_name) from strLower_idem _]
    rfl
  unfold RecordName.from_trust
  dsimp only
  by_cases hemp : (strLower (trustNameToString query_name)).isEmpty
  · rw [if_neg (by simp [hemp])]
    unfold RecordName.from_str
    rw [if_pos hval, hidem]
  · rw [if_pos (by simp [Bool.not_eq_true] at hemp ⊢; exact hemp)]
    rw [if_neg hcond]
    unfold RecordName.from_str
    rw [if_pos hval, hidem]

/-- C10 witness: from_trust keyed outside the zone: zone example.com, query
www.other.org, projected to the record name www.other.org.@ rather than
failing. -/
theorem C10_from_trust_outside_zone_witness :
    RecordName.from_trust ⟨["example".toList, "com".toList]⟩
      ⟨["www".toList, "other".toList, "org".toList]⟩ =
      some ⟨"www.other.org.@".toList⟩ := by
  have h := C10_from_trust_outside_zone ⟨["example".toList, "com".toList]⟩
    ⟨["www".toList, "other".toList, "org".toList]⟩ (by decide) (by decide)
  simpa using h

end Constellation